import Mathlib

/-!
Verification of the reference-map engine of pysofe
(src/pysofe/meshes/reference_map.py).

Coordinates are modelled as exact rationals, numpy arrays as nested lists
(axis by axis), and every fallible operation returns an Except value.  The
external P1 shape element and the Mesh collaborator are not part of the
sources; they are modelled from the specification where noted.
-/

namespace PySofe

/-- Failure outcomes of the reference-map operations, mirroring the
exceptions raised by the source: the TypeError for a mask of invalid dtype,
the fall-through of the derivative dispatch (the source never assigns the
result for a derivative order outside 0/1/2, so the final return raises),
the two ValueErrors and the assertion of eval_inverse, and the two
NotImplementedErrors of the Jacobian routines. -/
inductive EvalError where
  | invalidMask (dtype : String)
  | invalidDeriv
  | unsupportedOrder
  | unsupportedDimension
  | dimensionMismatch
  | unsupportedJacobianShape
  | notImplementedInverse
deriving DecidableEq, Repr

/-- External Mesh collaborator (consumed read-only by the core): global node
coordinates, the embedding dimension, and for each topological dimension the
ordered entity-to-vertex incidence lists, with 1-based vertex indices as in
the source convention. -/
structure Mesh where
  nodes : List (List ℚ)
  dimension : ℕ
  entities : ℕ → List (List ℕ)

/-- The ReferenceMap data structure: a mesh reference together with the
polynomial order of the shape element it constructs; the source constructor
always builds a P1 element, whose order is 1. -/
structure ReferenceMap where
  mesh : Mesh
  shape_elem_order : ℕ := 1

/-- numpy take along axis 0 with a single (possibly negative) index:
a negative index wraps from the end of the axis. -/
def takeIdx {α : Type} (dflt : α) (l : List α) (i : ℤ) : α :=
  if 0 ≤ i then l.getD i.toNat dflt else l.getD ((l.length : ℤ) + i).toNat dflt

/-- numpy compress along axis 0 with a boolean condition vector: keep the
entries whose condition is true (the condition may be shorter than the
axis; the overhang of the axis is dropped). -/
def compress {α : Type} (bs : List Bool) (l : List α) : List α :=
  ((l.zip bs).filter (fun p => p.2)).map (fun p => p.1)

/-- numpy total element count of a 2-axis array. -/
def pointsSize (points : List (List ℚ)) : ℕ :=
  (points.map List.length).sum

/-- Number of query points: the common length of the coordinate rows of the
local-point array (one row per reference coordinate, one column per point). -/
def nPoints (points : List (List ℚ)) : ℕ :=
  (points.getD 0 []).length

/-- Coordinate i of query point j. -/
def pointCoord (points : List (List ℚ)) (i j : ℕ) : ℚ :=
  (points.getD i []).getD j 0

/-- Basis tensors returned by the shape element: values (nB x nP), first
derivatives (nB x nP x d), or second derivatives (nB x nP x d x d). -/
inductive BasisResult where
  | b0 (t : List (List ℚ))
  | b1 (t : List (List (List ℚ)))
  | b2 (t : List (List (List (List ℚ))))
deriving DecidableEq, Repr

/-- Modelled from the spec: the external P1 (order-1 Lagrange) shape element
of src/pysofe/elements/simple/lagrange.py, which is not among the given
sources.  Per the spec, a shape element of topological dimension d exposes
basis values of shape B x P; for the linear Lagrange element on the
d-simplex these are the barycentric values b0 = 1 - sum of the local
coordinates and bi = coordinate i-1 (the linear-interpolation formula the
spec verifies in its shape-contract test). -/
def p1Basis0 (d : ℕ) (points : List (List ℚ)) : List (List ℚ) :=
  (List.range (d + 1)).map fun b =>
    (List.range (nPoints points)).map fun j =>
      if b = 0 then 1 - ((List.range d).map fun i => pointCoord points i j).sum
      else pointCoord points (b - 1) j

/-- Modelled from the spec: first derivatives of the P1 basis functions,
shape B x P x d; the gradients are constant, grad b0 = (-1,...,-1) and
grad bi = the (i-1)-th unit vector. -/
def p1Basis1 (d : ℕ) (points : List (List ℚ)) : List (List (List ℚ)) :=
  (List.range (d + 1)).map fun b =>
    (List.range (nPoints points)).map fun _ =>
      (List.range d).map fun i =>
        if b = 0 then -1 else if b - 1 = i then 1 else 0

/-- Modelled from the spec: second derivatives of the P1 basis functions,
shape B x P x d x d; all zero for a linear element. -/
def p1Basis2 (d : ℕ) (points : List (List ℚ)) : List (List (List (List ℚ)))
  :=
  (List.range (d + 1)).map fun _ =>
    (List.range (nPoints points)).map fun _ =>
      (List.range d).map fun _ => (List.range d).map fun _ => (0 : ℚ)

/-- Modelled from the spec: eval_basis of the external shape element,
defined for derivative orders 0, 1 and 2 (the only tensors the spec
describes); any other order has no defined result. -/
def P1.eval_basis (d : ℕ) (points : List (List ℚ)) (deriv : ℕ) :
    Except EvalError BasisResult :=
  if deriv = 0 then .ok (.b0 (p1Basis0 d points))
  else if deriv = 1 then .ok (.b1 (p1Basis1 d points))
  else if deriv = 2 then .ok (.b2 (p1Basis2 d points))
  else .error .invalidDeriv

/-- Mask argument of eval: a one-dimensional numpy array whose dtype is
integer, boolean, or anything else (recorded by its dtype name). -/
inductive Mask where
  | ints (idxs : List ℤ)
  | bools (bs : List Bool)
  | other (dtype : String)
deriving DecidableEq, Repr

/-- The mask branch of eval: an integer mask gathers along the entity axis
(numpy take), a boolean mask compresses, any other dtype is a TypeError. -/
def applyMask (coords : List (List (List ℚ))) :
    Option Mask → Except EvalError (List (List (List ℚ)))
  | none => .ok coords
  | some (.ints idxs) => .ok (idxs.map fun i => takeIdx [] coords i)
  | some (.bools bs) => .ok (compress bs coords)
  | some (.other dtype) => .error (.invalidMask dtype)

/-- Result tensor of eval: nE x nP x D for derivative order 0, with one or
two extra trailing axes of size dim for orders 1 and 2. -/
inductive EvalResult where
  | d0 (t : List (List (List ℚ)))
  | d1 (t : List (List (List (List ℚ))))
  | d2 (t : List (List (List (List (List ℚ)))))
deriving DecidableEq, Repr

/-- The deriv = 0 contraction of eval:
(coords[:,:,None,:] * basis[None,:,:,None]).sum(axis=1), i.e. the sum over
the basis-function axis of the outer product of the gathered vertex
coordinates with the basis values. -/
def contract0 (coords : List (List (List ℚ))) (basis : List (List ℚ))
    (nP D : ℕ) : List (List (List ℚ)) :=
  coords.map fun ce =>
    (List.range nP).map fun p =>
      (List.range D).map fun k =>
        (List.zipWith (fun crow brow => crow.getD k 0 * brow.getD p 0)
          ce basis).sum

/-- The deriv = 1 contraction of eval:
(coords[:,:,None,:,None] * basis[None,:,:,None,:]).sum(axis=1). -/
def contract1 (coords : List (List (List ℚ)))
    (basis : List (List (List ℚ))) (nP D d : ℕ) :
    List (List (List (List ℚ))) :=
  coords.map fun ce =>
    (List.range nP).map fun p =>
      (List.range D).map fun k =>
        (List.range d).map fun j =>
          (List.zipWith
            (fun crow bb => crow.getD k 0 * ((bb.getD p []).getD j 0))
            ce basis).sum

/-- The deriv = 2 contraction of eval:
(coords[:,:,None,:,None,None] * basis[None,:,:,None,:,:]).sum(axis=1). -/
def contract2 (coords : List (List (List ℚ)))
    (basis : List (List (List (List ℚ)))) (nP D d : ℕ) :
    List (List (List (List (List ℚ)))) :=
  coords.map fun ce =>
    (List.range nP).map fun p =>
      (List.range D).map fun k =>
        (List.range d).map fun j1 =>
          (List.range d).map fun j2 =>
            (List.zipWith
              (fun crow bb =>
                crow.getD k 0 * (((bb.getD p []).getD j1 []).getD j2 0))
              ce basis).sum

/-- ReferenceMap.eval: evaluates every reference map, or its first or second
derivative, at the given local points, optionally restricted by a mask.
Mirrors the source line by line: the empty-point special case returns the
node coordinates with a singleton point axis; otherwise the basis tensor is
computed (its failure for an unhandled derivative order models the source
falling through the dispatch and raising on the unassigned result), the
entity vertex coordinates are gathered with the 1-based index offset, the
mask restricts the entity axis, and the contraction is dispatched on the
derivative order. -/
def ReferenceMap.eval (rm : ReferenceMap) (points : List (List ℚ))
    (deriv : ℕ) (mask : Option Mask) : Except EvalError EvalResult :=
  if pointsSize points = 0 then
    .ok (.d0 (rm.mesh.nodes.map fun nd => [nd]))
  else
    let dim := points.length
    match P1.eval_basis dim points deriv with
    | .error e => .error e
    | .ok basis =>
      let vertices := rm.mesh.entities dim
      let coords0 := vertices.map fun ent =>
        ent.map fun (v : ℕ) => takeIdx [] rm.mesh.nodes ((v : ℤ) - 1)
      match applyMask coords0 mask with
      | .error e => .error e
      | .ok coords =>
        let nP := nPoints points
        let D := (rm.mesh.nodes.getD 0 []).length
        match basis with
        | .b0 t => .ok (.d0 (contract0 coords t nP D))
        | .b1 t => .ok (.d1 (contract1 coords t nP D dim))
        | .b2 t => .ok (.d2 (contract2 coords t nP D dim))

/-- numpy transpose of a 2-axis array (rectangular; the column count is read
from the first row). -/
def transposeQ (m : List (List ℚ)) : List (List ℚ) :=
  (List.range ((m.getD 0 []).length)).map fun j => m.map fun row => row.getD j 0

/-- Componentwise difference of two coordinate rows. -/
def zipSub (a b : List ℚ) : List ℚ :=
  List.zipWith (fun x y => x - y) a b

/-- np.linalg.det of one trailing block, by the closed 1x1 / 2x2 / 3x3
cofactor formulas (np.linalg.det computes the ordinary determinant; the
dispatch of the caller guarantees one of these three block shapes). -/
def matDet (m : List (List ℚ)) : ℚ :=
  match m with
  | [[a]] => a
  | [[a, b], [c, d]] => a * d - b * c
  | [[a, b, c], [d, e, f], [g, h, i]] =>
      a * (e * i - f * h) - b * (d * i - f * g) + c * (d * h - e * g)
  | _ => 0

/-- np.linalg.inv of one trailing block, by the adjugate-over-determinant
formulas for the 1x1 / 2x2 / 3x3 shapes the caller dispatches to. -/
def matInv (m : List (List ℚ)) : List (List ℚ) :=
  match m with
  | [[a]] => [[1 / a]]
  | [[a, b], [c, d]] =>
      let e := a * d - b * c
      [[d / e, -b / e], [-c / e, a / e]]
  | [[a, b, c], [d, e, f], [g, h, i]] =>
      let dt := a * (e * i - f * h) - b * (d * i - f * g) + c * (d * h - e * g)
      [[(e * i - f * h) / dt, (c * h - b * i) / dt, (b * f - c * e) / dt],
       [(f * g - d * i) / dt, (a * i - c * g) / dt, (c * d - a * f) / dt],
       [(d * h - e * g) / dt, (b * g - a * h) / dt, (a * e - b * d) / dt]]
  | _ => []

/-- ReferenceMap.eval_inverse: inverts the affine reference maps of the
given host elements at the given global points.  The hosts argument is the
two-axis array of the host elements' 1-based vertex-index tuples (the only
layout under which the source's nodes.take(hosts - 1) produces the host
elements' vertex coordinates used by the closed-form formulas).  The
preconditions are checked in source order: shape-element order 1, mesh
dimension in 1/2, and the assertion that the point rows match the mesh
dimension.  Dimension 1 applies the elementwise reciprocal of the edge
vector; dimension 2 builds the 2x2 edge matrix with np.dstack (edge vectors
as columns), inverts it, and contracts it with the offset points; the
result is transposed back to one column per point. -/
def ReferenceMap.eval_inverse (rm : ReferenceMap) (points : List (List ℚ))
    (hosts : List (List ℕ)) : Except EvalError (List (List ℚ)) :=
  let dim := points.length
  if rm.shape_elem_order ≠ 1 then .error .unsupportedOrder
  else if ¬(rm.mesh.dimension = 1 ∨ rm.mesh.dimension = 2) then
    .error .unsupportedDimension
  else if dim ≠ rm.mesh.dimension then .error .dimensionMismatch
  else
    let coords := hosts.map fun h =>
      h.map fun (v : ℕ) => takeIdx [] rm.mesh.nodes ((v : ℤ) - 1)
    let ptsT := transposeQ points
    if dim = 1 then
      let pre := List.zipWith
        (fun ci pti =>
          let p0i := ci.getD 0 []
          let Pi := zipSub (ci.getD 1 []) p0i
          (List.range Pi.length).map fun k =>
            (1 / Pi.getD k 0) * (pti.getD k 0 - p0i.getD k 0))
        coords ptsT
      .ok (transposeQ pre)
    else
      let pre := List.zipWith
        (fun ci pti =>
          let p0i := ci.getD 0 []
          let p10 := zipSub (ci.getD 1 []) p0i
          let p20 := zipSub (ci.getD 2 []) p0i
          let P := [[p10.getD 0 0, p20.getD 0 0], [p10.getD 1 0, p20.getD 1 0]]
          let Pinv := matInv P
          let diff := [pti.getD 0 0 - p0i.getD 0 0, pti.getD 1 0 - p0i.getD 1 0]
          Pinv.map fun rowj =>
            (List.zipWith (fun mk dk => mk * dk) rowj diff).sum)
        coords ptsT
      .ok (transposeQ pre)

/-- ReferenceMap.jacobian_inverse: evaluates the first-derivative maps and
dispatches on the trailing shape of the Jacobian tensor: batched matrix
inverse for the square shapes (1,1), (2,2), (3,3); elementwise reciprocal
whenever the last axis has size 1; NotImplementedError otherwise.  The
trailing shape of the numpy result is (D, dim) with D the node-coordinate
width and dim the number of point rows (and (1, D) for the degenerate
three-axis tensor returned for an empty point set). -/
def ReferenceMap.jacobian_inverse (rm : ReferenceMap)
    (points : List (List ℚ)) (mask : Option Mask) :
    Except EvalError EvalResult :=
  match rm.eval points 1 mask with
  | .error e => .error e
  | .ok (.d1 jacs) =>
      let D := (rm.mesh.nodes.getD 0 []).length
      let dim := points.length
      if (D, dim) = (1, 1) ∨ (D, dim) = (2, 2) ∨ (D, dim) = (3, 3) then
        .ok (.d1 (jacs.map fun pe => pe.map matInv))
      else if dim = 1 then
        .ok (.d1 (jacs.map fun pe => pe.map fun J =>
          J.map fun row => row.map fun x => 1 / x))
      else .error .notImplementedInverse
  | .ok (.d0 t) =>
      let D := (rm.mesh.nodes.getD 0 []).length
      if (1, D) = (1, 1) then .ok (.d0 (t.map matInv))
      else .error .notImplementedInverse
  | .ok (.d2 _) => .error .notImplementedInverse

/-- Tag recording which closed formula produced the determinant values: the
ordinary determinant of the square branches, or a value to which the source
still applies np.sqrt (the Euclidean-norm and cross-product-magnitude
branches); in the latter case the stored rationals are the exact radicands. -/
inductive DetKind where
  | det
  | sqrtOf
deriving DecidableEq, Repr

/-- Determinant value tensor: nE x nP for the regular four-axis Jacobian
feed, one scalar per node for the degenerate empty-point feed. -/
inductive DetTensor where
  | one (v : List ℚ)
  | two (v : List (List ℚ))
deriving DecidableEq, Repr

/-- The (3,2) branch of jacobian_determinant: the squared cross-product
magnitude of the two tangent columns of one 3x2 Jacobian block. -/
def crossSq (J : List (List ℚ)) : ℚ :=
  let a := fun (i j : ℕ) => (J.getD i []).getD j 0
  (a 1 0 * a 2 1 - a 2 0 * a 1 1) ^ 2
    + (a 2 0 * a 0 1 - a 0 0 * a 2 1) ^ 2
    + (a 0 0 * a 1 1 - a 1 0 * a 0 1) ^ 2

/-- The (2,1) branch of jacobian_determinant: the sum of squares of the
single tangent column of one 2x1 Jacobian block (the source then takes
np.sqrt of it). -/
def colSq (J : List (List ℚ)) : ℚ :=
  (J.map fun row => (row.getD 0 0) ^ 2).sum

/-- ReferenceMap.jacobian_determinant: evaluates the first-derivative maps
and dispatches on the trailing shape of the Jacobian tensor: ordinary
determinant for (1,1), (2,2), (3,3); sqrt of the column sum of squares for
(2,1); sqrt of the cross-product magnitude for (3,2); NotImplementedError
for every other shape. -/
def ReferenceMap.jacobian_determinant (rm : ReferenceMap)
    (points : List (List ℚ)) (mask : Option Mask) :
    Except EvalError (DetKind × DetTensor) :=
  match rm.eval points 1 mask with
  | .error e => .error e
  | .ok (.d1 jacs) =>
      let D := (rm.mesh.nodes.getD 0 []).length
      let dim := points.length
      if (D, dim) = (1, 1) ∨ (D, dim) = (2, 2) ∨ (D, dim) = (3, 3) then
        .ok (.det, .two (jacs.map fun pe => pe.map matDet))
      else if (D, dim) = (2, 1) then
        .ok (.sqrtOf, .two (jacs.map fun pe => pe.map colSq))
      else if (D, dim) = (3, 2) then
        .ok (.sqrtOf, .two (jacs.map fun pe => pe.map crossSq))
      else .error .unsupportedJacobianShape
  | .ok (.d0 t) =>
      let D := (rm.mesh.nodes.getD 0 []).length
      if (1, D) = (1, 1) then .ok (.det, .one (t.map matDet))
      else .error .unsupportedJacobianShape
  | .ok (.d2 _) => .error .unsupportedJacobianShape

/-!  Helper lemmas about the list-level primitives of the embedding. -/

lemma takeIdx_nonneg {α : Type} (dflt : α) (l : List α) (i : ℤ) (h : 0 ≤ i) :
    takeIdx dflt l i = l.getD i.toNat dflt := by
  unfold takeIdx
  rw [if_pos h]

lemma takeIdx_map {α β : Type} (f : α → β) (l : List α) (i : ℤ)
    (d : α) : takeIdx (f d) (l.map f) i = f (takeIdx d l i) := by
  unfold takeIdx
  by_cases h0 : 0 ≤ i <;> simp [h0, List.getD_map]

lemma compress_nil {α : Type} (bs : List Bool) :
    compress bs ([] : List α) = [] := by
  simp [compress]

lemma compress_cons {α : Type} (b : Bool) (bs : List Bool) (x : α)
    (l : List α) :
    compress (b :: bs) (x :: l) = if b then x :: compress bs l
      else compress bs l := by
  by_cases hb : b <;> simp [compress, hb]

lemma compress_map {α β : Type} (f : α → β) (bs : List Bool) (l : List α) :
    compress bs (l.map f) = (compress bs l).map f := by
  induction l generalizing bs with
  | nil => simp [compress]
  | cons x xs ih =>
    cases bs with
    | nil => simp [compress]
    | cons b bt =>
      rw [List.map_cons, compress_cons, compress_cons]
      by_cases hb : b <;> simp [hb, ih]

/-- Sum of an index-paired product over zipped lists, written as a sum over
the index range of the first list; terms beyond the second list's length
contribute nothing because the scalar default of an absent row is zero. -/
lemma zipWith_sum_eq_range {α β : Type} (f : α → β → ℚ) (d1 : α) (d2 : β)
    (hf : ∀ x, f x d2 = 0) :
    ∀ (l1 : List α) (l2 : List β),
      (List.zipWith f l1 l2).sum
        = ((List.range l1.length).map
            (fun b => f (l1.getD b d1) (l2.getD b d2))).sum := by
  intro l1
  induction l1 with
  | nil => simp
  | cons x xs ih =>
    intro l2
    cases l2 with
    | nil =>
      rw [List.zipWith_nil_right]
      symm
      apply List.sum_eq_zero
      intro q hq
      rw [List.mem_map] at hq
      obtain ⟨b, hb, rfl⟩ := hq
      simp [hf]
    | cons y ys =>
      simp only [List.zipWith, List.sum_cons, List.length_cons,
        List.range_succ_eq_map, List.map_cons, List.getD_cons_zero,
        List.map_map]
      rw [ih ys]
      have hmap : List.map
            (fun b => f (xs.getD b d1) (ys.getD b d2)) (List.range xs.length)
          = List.map
            ((fun b => f ((x :: xs).getD b d1) ((y :: ys).getD b d2))
              ∘ Nat.succ)
            (List.range xs.length) := by
        apply List.map_congr_left
        intro b hb
        simp [Function.comp]
      rw [hmap]

/-- Mapping an element function over a list is the same as mapping the
index function over the index range. -/
lemma map_range_getD {α β : Type} (f : α → β) (d : α) (l : List α) :
    (List.range l.length).map (fun i => f (l.getD i d)) = l.map f := by
  induction l with
  | nil => simp
  | cons x xs ih =>
    simp only [List.length_cons, List.range_succ_eq_map, List.map_cons,
      List.getD_cons_zero, List.map_map]
    rw [← ih]
    simp [Function.comp]

lemma zipWith_congr {α β γ : Type} (f g : α → β → γ) :
    ∀ (l1 : List α) (l2 : List β),
      (∀ a ∈ l1, ∀ b ∈ l2, f a b = g a b) →
      List.zipWith f l1 l2 = List.zipWith g l1 l2 := by
  intro l1
  induction l1 with
  | nil => intro l2 h; simp
  | cons x xs ih =>
    intro l2 h
    cases l2 with
    | nil => simp
    | cons y ys =>
      simp only [List.zipWith]
      rw [h x (by simp) y (by simp), ih ys]
      intro a ha b hb
      exact h a (by simp [ha]) b (by simp [hb])

/-- Transposing a single row yields the corresponding column. -/
lemma transposeQ_singleton (row : List ℚ) :
    transposeQ [row] = row.map (fun x => [x]) := by
  unfold transposeQ
  simp only [List.getD_cons_zero]
  rw [← map_range_getD (fun x => [x]) 0 row]
  simp

/-- Transposing a nonempty column yields the corresponding single row. -/
lemma transposeQ_column (ys : List ℚ) (h : ys ≠ []) :
    transposeQ (ys.map (fun y => [y])) = [ys] := by
  unfold transposeQ
  cases ys with
  | nil => simp at h
  | cons y yt =>
    simp [List.map_map, Function.comp, List.range_succ]
    trans List.map id yt
    · apply List.map_congr_left
      intro z hz
      simp
    · simp

/-!  Spec-side formulations, written from the specification's words, to be
compared with the source-derived definitions above. -/

/-- Follows the spec's words: the value of basis function b at query point
p of the linear shape element (the barycentric linear-interpolation basis). -/
def p1BasisVal (d : ℕ) (points : List (List ℚ)) (b p : ℕ) : ℚ :=
  if b = 0 then 1 - ((List.range d).map fun i => pointCoord points i p).sum
  else pointCoord points (b - 1) p

/-- Follows the spec's words for eval with deriv = 0: for every entity of
the topological dimension spanned by the point rows, and every point and
spatial direction, sum over the basis-function axis the product of the
gathered vertex coordinate (node index offset by 1 from the stored
topology index) with the basis value. -/
def evalZeroSpec (m : Mesh) (points : List (List ℚ)) :
    List (List (List ℚ)) :=
  (m.entities points.length).map fun ent =>
    (List.range (nPoints points)).map fun p =>
      (List.range ((m.nodes.getD 0 []).length)).map fun k =>
        ((List.range ent.length).map fun b =>
          (takeIdx [] m.nodes ((ent.getD b 0 : ℤ) - 1)).getD k 0
            * p1BasisVal points.length points b p).sum

/-- The list of positions (as integer mask indices) at which a boolean mask
is true, starting from a given offset. -/
def trueIndicesFrom (k : ℤ) : List Bool → List ℤ
  | [] => []
  | true :: bs => k :: trueIndicesFrom (k + 1) bs
  | false :: bs => trueIndicesFrom (k + 1) bs

/-- The integer mask selecting exactly the positions at which a boolean
mask is true, in the same order. -/
def trueIndices (bs : List Bool) : List ℤ :=
  trueIndicesFrom 0 bs

/-!  Concrete meshes used by the testable properties of the spec. -/

/-- The 1-D mesh of the spec's shape-contract test: nodes 0, 1, 2 and the
two cells with 1-based vertex tuples (1,2) and (2,3). -/
def mesh1D : Mesh where
  nodes := [[0], [1], [2]]
  dimension := 1
  entities := fun d => if d = 1 then [[1, 2], [2, 3]] else []

def rm1D : ReferenceMap := { mesh := mesh1D }

/-- A 1-D mesh with a single segment with arbitrary endpoint coordinates. -/
def rmSeg (a b : ℚ) : ReferenceMap where
  mesh :=
    { nodes := [[a], [b]], dimension := 1,
      entities := fun d => if d = 1 then [[1, 2]] else [] }

/-- A 2-D mesh with a single triangle with arbitrary vertex coordinates. -/
def rmTri (a1 a2 b1 b2 c1 c2 : ℚ) : ReferenceMap where
  mesh :=
    { nodes := [[a1, a2], [b1, b2], [c1, c2]], dimension := 2,
      entities := fun d => if d = 2 then [[1, 2, 3]] else [] }

/-- A 1-D topology embedded in 2-D (a curve segment), with arbitrary
endpoint coordinates: its Jacobians have trailing shape (2, 1). -/
def rmCurve (w x y z : ℚ) : ReferenceMap where
  mesh :=
    { nodes := [[w, x], [y, z]], dimension := 2,
      entities := fun d => if d = 1 then [[1, 2]] else [] }

/-- A 3-D mesh with one tetrahedron whose Jacobian is diag(2, 3, 5). -/
def rmTet : ReferenceMap where
  mesh :=
    { nodes := [[0, 0, 0], [2, 0, 0], [0, 3, 0], [0, 0, 5]], dimension := 3,
      entities := fun d => if d = 3 then [[1, 2, 3, 4]] else [] }

/-- A 2-D topology embedded in 3-D (the reference triangle as a surface):
its Jacobians have trailing shape (3, 2). -/
def rmSurf : ReferenceMap where
  mesh :=
    { nodes := [[0, 0, 0], [1, 0, 0], [0, 1, 0]], dimension := 3,
      entities := fun d => if d = 2 then [[1, 2, 3]] else [] }

/-- A 4-D mesh with one 4-simplex: its Jacobians have the unsupported
trailing shape (4, 4). -/
def rm4D : ReferenceMap where
  mesh :=
    { nodes := [[0, 0, 0, 0], [1, 0, 0, 0], [0, 1, 0, 0], [0, 0, 1, 0],
        [0, 0, 0, 1]],
      dimension := 4,
      entities := fun d => if d = 4 then [[1, 2, 3, 4, 5]] else [] }

/-- A mesh with three 1-D elements, for the mask-equivalence test. -/
def rm3E : ReferenceMap where
  mesh :=
    { nodes := [[0], [1], [2], [3]], dimension := 1,
      entities := fun d => if d = 1 then [[1, 2], [2, 3], [3, 4]] else [] }

/-- Unfolded form of eval on a nonempty point set. -/
lemma eval_eq_of_not_empty (rm : ReferenceMap) (points : List (List ℚ))
    (deriv : ℕ) (mask : Option Mask) (hp : ¬ pointsSize points = 0) :
    rm.eval points deriv mask =
      match P1.eval_basis points.length points deriv with
      | .error e => .error e
      | .ok basis =>
        match applyMask ((rm.mesh.entities points.length).map fun ent =>
            ent.map fun (v : ℕ) => takeIdx [] rm.mesh.nodes ((v : ℤ) - 1)) mask with
        | .error e => .error e
        | .ok coords =>
          match basis with
          | .b0 t => .ok (.d0 (contract0 coords t (nPoints points)
              ((rm.mesh.nodes.getD 0 []).length)))
          | .b1 t => .ok (.d1 (contract1 coords t (nPoints points)
              ((rm.mesh.nodes.getD 0 []).length) points.length))
          | .b2 t => .ok (.d2 (contract2 coords t (nPoints points)
              ((rm.mesh.nodes.getD 0 []).length) points.length)) := by
  unfold ReferenceMap.eval
  rw [if_neg hp]

/-- C10: when the supplied point array is empty (total size 0), eval
returns the mesh node coordinates with a singleton point axis, for every
derivative order and every mask, skipping mask validation and the
derivative dispatch entirely. -/
theorem C10_empty_points_early_return (rm : ReferenceMap)
    (points : List (List ℚ)) (deriv : ℕ) (mask : Option Mask)
    (h : pointsSize points = 0) :
    rm.eval points deriv mask
      = .ok (.d0 (rm.mesh.nodes.map fun nd => [nd])) := by
  unfold ReferenceMap.eval
  rw [if_pos h]

/-- C10 witness: the empty point array on the concrete 1-D mesh, with an
out-of-contract derivative order and an invalid mask, still returns the
node coordinates with a singleton point axis. -/
theorem C10_empty_points_early_return_witness :
    pointsSize ([] : List (List ℚ)) = 0 ∧
      rm1D.eval [] 7 (some (.other "float64"))
        = .ok (.d0 [[[0]], [[1]], [[2]]]) :=
  ⟨rfl, by
    rw [C10_empty_points_early_return rm1D [] 7 (some (.other "float64")) rfl]
    rfl⟩

/-- C9: for every nonempty point array, eval with a derivative order other
than 0, 1 or 2 fails with the invalid-argument error instead of returning a
defined result (in the source the dispatch assigns no result and the final
return raises; the shape element's basis evaluation is likewise undefined
for such orders). -/
theorem C9_invalid_deriv_rejected (rm : ReferenceMap)
    (points : List (List ℚ)) (deriv : ℕ) (mask : Option Mask)
    (hp : pointsSize points ≠ 0)
    (hd : deriv ≠ 0 ∧ deriv ≠ 1 ∧ deriv ≠ 2) :
    rm.eval points deriv mask = .error .invalidDeriv := by
  have hb : P1.eval_basis points.length points deriv
      = .error .invalidDeriv := by
    unfold P1.eval_basis
    rw [if_neg hd.1, if_neg hd.2.1, if_neg hd.2.2]
  rw [eval_eq_of_not_empty rm points deriv mask hp, hb]

/-- C9 witness: derivative order 3 on the concrete 1-D mesh is rejected. -/
theorem C9_invalid_deriv_rejected_witness :
    pointsSize [[(1 : ℚ) / 2]] ≠ 0 ∧
      ((3 : ℕ) ≠ 0 ∧ (3 : ℕ) ≠ 1 ∧ (3 : ℕ) ≠ 2) ∧
      rm1D.eval [[(1 : ℚ) / 2]] 3 none = .error .invalidDeriv :=
  ⟨by decide, by decide,
    C9_invalid_deriv_rejected rm1D [[(1 : ℚ) / 2]] 3 none (by decide)
      (by decide)⟩

/-- C8: eval_inverse checks its preconditions eagerly, in source order: a
shape-element order other than 1 raises the unsupported-order error; an
embedding dimension outside 1 and 2 raises the unsupported-dimension error;
and, for a supported dimension, a point array whose row count differs from
the mesh dimension fails the assertion.  In each case no numeric result is
produced. -/
theorem C8_eval_inverse_preconditions :
    (∀ (rm : ReferenceMap) (points : List (List ℚ))
        (hosts : List (List ℕ)), rm.shape_elem_order ≠ 1 →
        rm.eval_inverse points hosts = .error .unsupportedOrder)
    ∧ (∀ (rm : ReferenceMap) (points : List (List ℚ))
        (hosts : List (List ℕ)), rm.shape_elem_order = 1 →
        ¬(rm.mesh.dimension = 1 ∨ rm.mesh.dimension = 2) →
        rm.eval_inverse points hosts = .error .unsupportedDimension)
    ∧ (∀ (rm : ReferenceMap) (points : List (List ℚ))
        (hosts : List (List ℕ)), rm.shape_elem_order = 1 →
        (rm.mesh.dimension = 1 ∨ rm.mesh.dimension = 2) →
        points.length ≠ rm.mesh.dimension →
        rm.eval_inverse points hosts = .error .dimensionMismatch) := by
  refine ⟨?_, ?_, ?_⟩
  · intro rm points hosts h
    unfold ReferenceMap.eval_inverse
    rw [if_pos h]
  · intro rm points hosts h1 h2
    unfold ReferenceMap.eval_inverse
    rw [if_neg (by simp [h1]), if_pos h2]
  · intro rm points hosts h1 h2 h3
    unfold ReferenceMap.eval_inverse
    rw [if_neg (by simp [h1]), if_neg (not_not_intro h2), if_pos h3]

/-- C8 witness: an order-2 shape element is rejected with the
unsupported-order error (the spec's error-on-wrong-order test); a 3-D mesh
is rejected with the unsupported-dimension error; and a 2-row point array
on the 1-D mesh fails the dimension assertion. -/
theorem C8_eval_inverse_preconditions_witness :
    (ReferenceMap.eval_inverse { mesh := mesh1D, shape_elem_order := 2 }
        [[(3 : ℚ) / 4]] [[1, 2]] = .error .unsupportedOrder)
    ∧ (rmTet.eval_inverse [[(1 : ℚ) / 4], [(1 : ℚ) / 4], [(1 : ℚ) / 4]]
        [[1, 2, 3, 4]] = .error .unsupportedDimension)
    ∧ (rm1D.eval_inverse [[(3 : ℚ) / 4], [(1 : ℚ) / 4]] [[1, 2]]
        = .error .dimensionMismatch) :=
  ⟨C8_eval_inverse_preconditions.1 _ _ _ (by decide),
    C8_eval_inverse_preconditions.2.1 _ _ _ rfl (by decide),
    C8_eval_inverse_preconditions.2.2 _ _ _ rfl (Or.inl rfl) (by decide)⟩

/-- The mesh whose entity lists of the given topological dimension have
been transformed by the given restriction of the entity axis, all other
dimensions untouched. -/
def restrictEntities (m : Mesh) (dim : ℕ)
    (tr : List (List ℕ) → List (List ℕ)) : Mesh where
  nodes := m.nodes
  dimension := m.dimension
  entities := fun d => if d = dim then tr (m.entities d) else m.entities d

/-- C6: with a nonempty point array and a supplied one-dimensional mask,
an integer mask restricts the entity axis by index selection (gathering
along the entity axis, here stated as: evaluating with the mask equals
evaluating maskless on the mesh whose entity list has been gathered by the
mask); a boolean mask restricts by inclusion (compression); and a mask of
any other element type raises the mask type error. -/
theorem C6_mask_dispatch :
    (∀ (rm : ReferenceMap) (points : List (List ℚ)) (deriv : ℕ)
        (idxs : List ℤ),
        rm.eval points deriv (some (.ints idxs)) =
          ReferenceMap.eval
            { mesh := restrictEntities rm.mesh points.length
                (fun ents => idxs.map (fun i => takeIdx [] ents i)),
              shape_elem_order := rm.shape_elem_order }
            points deriv none)
    ∧ (∀ (rm : ReferenceMap) (points : List (List ℚ)) (deriv : ℕ)
        (bs : List Bool),
        rm.eval points deriv (some (.bools bs)) =
          ReferenceMap.eval
            { mesh := restrictEntities rm.mesh points.length (compress bs),
              shape_elem_order := rm.shape_elem_order }
            points deriv none)
    ∧ (∀ (rm : ReferenceMap) (points : List (List ℚ)) (deriv : ℕ)
        (dtype : String), pointsSize points ≠ 0 → deriv ≤ 2 →
        rm.eval points deriv (some (.other dtype))
          = .error (.invalidMask dtype)) := by
  refine ⟨?_, ?_, ?_⟩
  · intro rm points deriv idxs
    by_cases hp : pointsSize points = 0
    · unfold ReferenceMap.eval
      rw [if_pos hp, if_pos hp]
      simp [restrictEntities]
    · rw [eval_eq_of_not_empty _ _ _ _ hp, eval_eq_of_not_empty _ _ _ _ hp]
      have hco : (idxs.map fun i => takeIdx []
            ((rm.mesh.entities points.length).map fun ent =>
              ent.map fun (v : ℕ) => takeIdx [] rm.mesh.nodes ((v : ℤ) - 1)) i)
          = ((idxs.map fun i =>
                takeIdx [] (rm.mesh.entities points.length) i).map
              fun ent =>
                ent.map fun (v : ℕ) => takeIdx [] rm.mesh.nodes ((v : ℤ) - 1)) := by
        rw [List.map_map]
        apply List.map_congr_left
        intro i hi
        simpa using takeIdx_map
          (fun ent => ent.map fun (v : ℕ) => takeIdx [] rm.mesh.nodes ((v : ℤ) - 1))
          (rm.mesh.entities points.length) i []
      simp [applyMask, hco, restrictEntities]
  · intro rm points deriv bs
    by_cases hp : pointsSize points = 0
    · unfold ReferenceMap.eval
      rw [if_pos hp, if_pos hp]
      simp [restrictEntities]
    · rw [eval_eq_of_not_empty _ _ _ _ hp, eval_eq_of_not_empty _ _ _ _ hp]
      have hco : compress bs
            ((rm.mesh.entities points.length).map fun ent =>
              ent.map fun (v : ℕ) => takeIdx [] rm.mesh.nodes ((v : ℤ) - 1))
          = (compress bs (rm.mesh.entities points.length)).map
              fun ent =>
                ent.map fun (v : ℕ) => takeIdx [] rm.mesh.nodes ((v : ℤ) - 1) :=
        compress_map _ bs _
      simp [applyMask, hco, restrictEntities]
  · intro rm points deriv dtype hp hd
    rw [eval_eq_of_not_empty _ _ _ _ hp]
    interval_cases deriv <;> simp [P1.eval_basis, applyMask]

/-- C6 witness: on the concrete 1-D mesh with a nonempty point, the
float-dtype mask raises the mask type error (with the other two branches
exercised by gathering and compressing to the first element). -/
theorem C6_mask_dispatch_witness :
    pointsSize [[(1 : ℚ) / 2]] ≠ 0 ∧ (0 : ℕ) ≤ 2 ∧
      rm1D.eval [[(1 : ℚ) / 2]] 0 (some (.other "float64"))
        = .error (.invalidMask "float64") :=
  ⟨by decide, by decide,
    C6_mask_dispatch.2.2 rm1D [[(1 : ℚ) / 2]] 0 "float64" (by decide)
      (by decide)⟩

/-- Gathering a list at the positions where a boolean mask is true, the
positions taken relative to an already-consumed left part, equals
compressing the remaining right part by the mask. -/
lemma gather_trueIndicesFrom {α : Type} (d : α) :
    ∀ (bs : List Bool) (l1 l2 : List α), bs.length ≤ l2.length →
      (trueIndicesFrom (l1.length : ℤ) bs).map
          (fun i => takeIdx d (l1 ++ l2) i)
        = compress bs l2 := by
  intro bs
  induction bs with
  | nil => intro l1 l2 h; simp [trueIndicesFrom, compress]
  | cons b bt ih =>
    intro l1 l2 h
    cases l2 with
    | nil => simp at h
    | cons x xs =>
      have hlen : ((l1 ++ [x]).length : ℤ) = (l1.length : ℤ) + 1 := by
        simp
      have happ : l1 ++ x :: xs = (l1 ++ [x]) ++ xs := by simp
      have hih := ih (l1 ++ [x]) xs (by simpa using h)
      rw [hlen, ← happ] at hih
      cases b with
      | false =>
        rw [show trueIndicesFrom (l1.length : ℤ) (false :: bt)
              = trueIndicesFrom ((l1.length : ℤ) + 1) bt from rfl,
          hih, compress_cons]
        simp
      | true =>
        rw [show trueIndicesFrom (l1.length : ℤ) (true :: bt)
              = (l1.length : ℤ) :: trueIndicesFrom ((l1.length : ℤ) + 1) bt
            from rfl]
        rw [List.map_cons, hih, compress_cons]
        have hhead : takeIdx d (l1 ++ x :: xs) (l1.length : ℤ) = x := by
          rw [takeIdx_nonneg d _ _ (by positivity)]
          have ht : ((l1.length : ℤ)).toNat = l1.length := by omega
          rw [ht]
          rw [List.getD_append_right l1 _ _ _ (le_refl _)]
          simp
        rw [hhead]
        simp

/-- C7: an integer mask listing exactly the positions at which a boolean
mask is true, in the same order, yields the same eval result as the boolean
mask, for every mesh, point array and derivative order, whenever the
boolean mask does not exceed the entity axis. -/
theorem C7_mask_equivalence (rm : ReferenceMap) (points : List (List ℚ))
    (deriv : ℕ) (bs : List Bool)
    (h : bs.length ≤ (rm.mesh.entities points.length).length) :
    rm.eval points deriv (some (.ints (trueIndices bs)))
      = rm.eval points deriv (some (.bools bs)) := by
  by_cases hp : pointsSize points = 0
  · unfold ReferenceMap.eval
    rw [if_pos hp, if_pos hp]
  · rw [eval_eq_of_not_empty _ _ _ _ hp, eval_eq_of_not_empty _ _ _ _ hp]
    have hco : (trueIndices bs).map
          (fun i => takeIdx []
            ((rm.mesh.entities points.length).map fun ent =>
              ent.map fun (v : ℕ) => takeIdx [] rm.mesh.nodes ((v : ℤ) - 1)) i)
        = compress bs
            ((rm.mesh.entities points.length).map fun ent =>
              ent.map fun (v : ℕ) => takeIdx [] rm.mesh.nodes ((v : ℤ) - 1)) := by
      have hg := gather_trueIndicesFrom
        ([] : List (List ℚ)) bs []
        ((rm.mesh.entities points.length).map fun ent =>
          ent.map fun (v : ℕ) => takeIdx [] rm.mesh.nodes ((v : ℤ) - 1))
        (by simpa using h)
      simpa [trueIndices] using hg
    simp only [applyMask, hco]

/-- C7 witness: on the mesh with three elements, the integer mask (0, 2)
and the boolean mask (true, false, true) produce the same eval result, as
in the spec's mask-equivalence test. -/
theorem C7_mask_equivalence_witness :
    ([true, false, true] : List Bool).length
        ≤ (rm3E.mesh.entities 1).length ∧
      rm3E.eval [[(1 : ℚ) / 2]] 0 (some (.ints [0, 2]))
        = rm3E.eval [[(1 : ℚ) / 2]] 0 (some (.bools [true, false, true])) := by
  refine ⟨by decide, ?_⟩
  have h := C7_mask_equivalence rm3E [[(1 : ℚ) / 2]] 0 [true, false, true]
    (by decide)
  have ht : trueIndices [true, false, true] = [0, 2] := by decide
  rw [ht] at h
  exact h

/-- Unfolded form of the first-derivative eval feeding the Jacobian
routines, on a nonempty point set without a mask. -/
lemma eval_deriv1_ok (rm : ReferenceMap) (points : List (List ℚ))
    (hp : ¬ pointsSize points = 0) :
    rm.eval points 1 none = .ok (.d1 (contract1
      ((rm.mesh.entities points.length).map fun ent =>
        ent.map fun (v : ℕ) => takeIdx [] rm.mesh.nodes ((v : ℤ) - 1))
      (p1Basis1 points.length points) (nPoints points)
      ((rm.mesh.nodes.getD 0 []).length) points.length)) := by
  rw [eval_eq_of_not_empty _ _ _ _ hp]
  simp [P1.eval_basis, applyMask]

/-- C4: jacobian_determinant dispatches on the trailing shape of the
Jacobian tensor.  Square shapes get the ordinary determinant per entity and
point (shown per entity on the concrete two-element 1-D mesh, for an
arbitrary triangle at shape (2,2), and for the concrete tetrahedron at
(3,3); two closing conjuncts certify that the closed determinant formulas
are the ordinary Matrix.det).  Trailing shape (2,1) produces the square
root of the sum of squares of the single column (the Euclidean norm of the
tangent), shown for an arbitrary 2-D curve segment; trailing shape (3,2)
produces the cross-product magnitude, shown on the concrete reference
surface; and every other trailing shape fails with the
unsupported-Jacobian-shape error. -/
theorem C4_jacobian_determinant_dispatch :
    (rm1D.jacobian_determinant [[(1 : ℚ) / 2]] none
        = .ok (.det, .two [[1], [1]]))
    ∧ (∀ a1 a2 b1 b2 c1 c2 ξ1 ξ2 : ℚ,
        (rmTri a1 a2 b1 b2 c1 c2).jacobian_determinant [[ξ1], [ξ2]] none
          = .ok (.det, .two [[(b1 - a1) * (c2 - a2) - (c1 - a1) * (b2 - a2)]]))
    ∧ (rmTet.jacobian_determinant [[(1 : ℚ) / 4], [(1 : ℚ) / 4], [(1 : ℚ) / 4]]
        none = .ok (.det, .two [[30]]))
    ∧ (∀ w x y z ξ : ℚ,
        (rmCurve w x y z).jacobian_determinant [[ξ]] none
          = .ok (.sqrtOf, .two [[(y - w) ^ 2 + (z - x) ^ 2]]))
    ∧ (rmSurf.jacobian_determinant [[(1 : ℚ) / 3], [(1 : ℚ) / 3]] none
        = .ok (.sqrtOf, .two [[1]]))
    ∧ (∀ (rm : ReferenceMap) (points : List (List ℚ)),
        pointsSize points ≠ 0 →
        ((rm.mesh.nodes.getD 0 []).length, points.length)
            ∉ ([(1, 1), (2, 2), (3, 3), (2, 1), (3, 2)] : List (ℕ × ℕ)) →
        rm.jacobian_determinant points none
          = .error .unsupportedJacobianShape)
    ∧ (∀ a b c d : ℚ, matDet [[a, b], [c, d]] = Matrix.det !![a, b; c, d])
    ∧ (∀ q11 q12 q13 q21 q22 q23 q31 q32 q33 : ℚ,
        matDet [[q11, q12, q13], [q21, q22, q23], [q31, q32, q33]]
          = Matrix.det !![q11, q12, q13; q21, q22, q23; q31, q32, q33]) := by
  refine ⟨?_, ?_, ?_, ?_, ?_, ?_, ?_, ?_⟩
  · simp [ReferenceMap.jacobian_determinant, ReferenceMap.eval, P1.eval_basis,
      p1Basis1, contract1, applyMask, pointsSize, nPoints, pointCoord,
      takeIdx_nonneg, mesh1D, rm1D, List.range_succ, matDet]
    norm_num
  · intro a1 a2 b1 b2 c1 c2 ξ1 ξ2
    simp [ReferenceMap.jacobian_determinant, ReferenceMap.eval, P1.eval_basis,
      p1Basis1, contract1, applyMask, pointsSize, nPoints, pointCoord,
      takeIdx_nonneg, rmTri, List.range_succ, matDet]
    ring
  · simp [ReferenceMap.jacobian_determinant, ReferenceMap.eval, P1.eval_basis,
      p1Basis1, contract1, applyMask, pointsSize, nPoints, pointCoord,
      takeIdx_nonneg, rmTet, List.range_succ, matDet]
    norm_num
  · intro w x y z ξ
    simp [ReferenceMap.jacobian_determinant, ReferenceMap.eval, P1.eval_basis,
      p1Basis1, contract1, applyMask, pointsSize, nPoints, pointCoord,
      takeIdx_nonneg, rmCurve, List.range_succ, colSq]
    ring
  · simp [ReferenceMap.jacobian_determinant, ReferenceMap.eval, P1.eval_basis,
      p1Basis1, contract1, applyMask, pointsSize, nPoints, pointCoord,
      takeIdx_nonneg, rmSurf, List.range_succ, crossSq]
  · intro rm points hp hsh
    simp only [List.mem_cons, List.not_mem_nil, or_false, not_or] at hsh
    obtain ⟨h1, h2, h3, h4, h5⟩ := hsh
    unfold ReferenceMap.jacobian_determinant
    rw [eval_deriv1_ok rm points hp]
    set D := (rm.mesh.nodes.getD 0 []).length with hD
    set dim := points.length with hdim
    have h1' : ¬(D = 1 ∧ dim = 1) := fun hc => h1 (by rw [hc.1, hc.2])
    have h2' : ¬(D = 2 ∧ dim = 2) := fun hc => h2 (by rw [hc.1, hc.2])
    have h3' : ¬(D = 3 ∧ dim = 3) := fun hc => h3 (by rw [hc.1, hc.2])
    have h4' : ¬(D = 2 ∧ dim = 1) := fun hc => h4 (by rw [hc.1, hc.2])
    have h5' : ¬(D = 3 ∧ dim = 2) := fun hc => h5 (by rw [hc.1, hc.2])
    simp [h1', h2', h3', h4', h5']
  · intro a b c d
    simp [matDet, Matrix.det_fin_two_of]
  · intro q11 q12 q13 q21 q22 q23 q31 q32 q33
    simp [matDet, Matrix.det_fin_three]
    ring

/-- C4 witness: the unsupported-shape conjunct applied to the concrete 4-D
mesh, whose Jacobians have trailing shape (4,4), as in the spec's
determinant-shape-dispatch test. -/
theorem C4_jacobian_determinant_dispatch_witness :
    pointsSize [[(1 : ℚ) / 5], [(1 : ℚ) / 5], [(1 : ℚ) / 5], [(1 : ℚ) / 5]]
        ≠ 0 ∧
      ((rm4D.mesh.nodes.getD 0 []).length,
          ([[(1 : ℚ) / 5], [(1 : ℚ) / 5], [(1 : ℚ) / 5],
            [(1 : ℚ) / 5]] : List (List ℚ)).length)
          ∉ ([(1, 1), (2, 2), (3, 3), (2, 1), (3, 2)] : List (ℕ × ℕ)) ∧
      rm4D.jacobian_determinant
          [[(1 : ℚ) / 5], [(1 : ℚ) / 5], [(1 : ℚ) / 5], [(1 : ℚ) / 5]] none
        = .error .unsupportedJacobianShape :=
  ⟨by decide, by decide,
    C4_jacobian_determinant_dispatch.2.2.2.2.2.1 rm4D
      [[(1 : ℚ) / 5], [(1 : ℚ) / 5], [(1 : ℚ) / 5], [(1 : ℚ) / 5]]
      (by decide) (by decide)⟩

/-- Matrix product of two rectangular matrices (row list times row list),
used to state that the closed-form inverse blocks are genuine inverses. -/
def matMul (A B : List (List ℚ)) : List (List ℚ) :=
  A.map fun row =>
    (List.range ((B.getD 0 []).length)).map fun j =>
      (List.zipWith (fun a brow => a * brow.getD j 0) row B).sum

/-- C5 counterexample: on a curve in 2-D (nodes (0,0) and (3,4)) the
Jacobian has trailing shape (2,1) and is not a scalar — its single column
is (3, 4) — yet jacobian_inverse succeeds and returns the elementwise
reciprocal (1/3, 1/4) of that column, which is not a pseudo-inverse; the
elementwise-reciprocal branch therefore fires outside the genuine scalar
case, contradicting the claim. -/
theorem C5_counterexample :
    (rmCurve 0 0 3 4).eval [[(1 : ℚ) / 2]] 1 none = .ok (.d1 [[[[3], [4]]]])
    ∧ (rmCurve 0 0 3 4).jacobian_inverse [[(1 : ℚ) / 2]] none
        = .ok (.d1 [[[[1 / 3], [1 / 4]]]]) := by
  constructor
  · simp [ReferenceMap.eval, P1.eval_basis, p1Basis1, contract1, applyMask,
      pointsSize, nPoints, pointCoord, takeIdx_nonneg, rmCurve,
      List.range_succ]
  · simp [ReferenceMap.jacobian_inverse, ReferenceMap.eval, P1.eval_basis,
      p1Basis1, contract1, applyMask, pointsSize, nPoints, pointCoord,
      takeIdx_nonneg, rmCurve, List.range_succ]

/-- C5 amended: jacobian_inverse returns the ordinary batched matrix
inverse for the square trailing shapes (1,1), (2,2), (3,3) (shown for an
arbitrary segment, an arbitrary triangle, and the concrete tetrahedron,
with two closing conjuncts certifying that the closed 2x2 and 3x3 inverse
blocks are genuine two-sided... left inverses); for every trailing shape
with last axis 1 and more than one row it returns the elementwise
reciprocal of the column, not a pseudo-inverse (shown for an arbitrary 2-D
curve segment); and for every non-square trailing shape whose last
dimension is not 1 it fails with the not-implemented error. -/
theorem C5_jacobian_inverse_amended :
    (∀ a b ξ : ℚ, (rmSeg a b).jacobian_inverse [[ξ]] none
        = .ok (.d1 [[[[1 / (b - a)]]]]))
    ∧ (∀ a1 a2 b1 b2 c1 c2 ξ1 ξ2 : ℚ,
        (rmTri a1 a2 b1 b2 c1 c2).jacobian_inverse [[ξ1], [ξ2]] none
          = .ok (.d1 [[[[(c2 - a2)
                  / ((b1 - a1) * (c2 - a2) - (c1 - a1) * (b2 - a2)),
                -(c1 - a1)
                  / ((b1 - a1) * (c2 - a2) - (c1 - a1) * (b2 - a2))],
              [-(b2 - a2)
                  / ((b1 - a1) * (c2 - a2) - (c1 - a1) * (b2 - a2)),
                (b1 - a1)
                  / ((b1 - a1) * (c2 - a2) - (c1 - a1) * (b2 - a2))]]]]))
    ∧ (rmTet.jacobian_inverse
          [[(1 : ℚ) / 4], [(1 : ℚ) / 4], [(1 : ℚ) / 4]] none
        = .ok (.d1 [[[[1 / 2, 0, 0], [0, 1 / 3, 0], [0, 0, 1 / 5]]]]))
    ∧ (∀ w x y z ξ : ℚ, (rmCurve w x y z).jacobian_inverse [[ξ]] none
        = .ok (.d1 [[[[1 / (y - w)], [1 / (z - x)]]]]))
    ∧ (∀ (rm : ReferenceMap) (points : List (List ℚ)),
        pointsSize points ≠ 0 →
        ((rm.mesh.nodes.getD 0 []).length, points.length) ≠ (1, 1) →
        ((rm.mesh.nodes.getD 0 []).length, points.length) ≠ (2, 2) →
        ((rm.mesh.nodes.getD 0 []).length, points.length) ≠ (3, 3) →
        points.length ≠ 1 →
        rm.jacobian_inverse points none = .error .notImplementedInverse)
    ∧ (∀ a b c d : ℚ, a * d - b * c ≠ 0 →
        matMul (matInv [[a, b], [c, d]]) [[a, b], [c, d]]
          = [[1, 0], [0, 1]]) := by
  refine ⟨?_, ?_, ?_, ?_, ?_, ?_⟩
  · intro a b ξ
    simp [ReferenceMap.jacobian_inverse, ReferenceMap.eval, P1.eval_basis,
      p1Basis1, contract1, applyMask, pointsSize, nPoints, pointCoord,
      takeIdx_nonneg, rmSeg, List.range_succ, matInv]
    ring_nf
  · intro a1 a2 b1 b2 c1 c2 ξ1 ξ2
    simp [ReferenceMap.jacobian_inverse, ReferenceMap.eval, P1.eval_basis,
      p1Basis1, contract1, applyMask, pointsSize, nPoints, pointCoord,
      takeIdx_nonneg, rmTri, List.range_succ, matInv]
    ring_nf
    simp
  · simp [ReferenceMap.jacobian_inverse, ReferenceMap.eval, P1.eval_basis,
      p1Basis1, contract1, applyMask, pointsSize, nPoints, pointCoord,
      takeIdx_nonneg, rmTet, List.range_succ, matInv]
    norm_num
  · intro w x y z ξ
    simp [ReferenceMap.jacobian_inverse, ReferenceMap.eval, P1.eval_basis,
      p1Basis1, contract1, applyMask, pointsSize, nPoints, pointCoord,
      takeIdx_nonneg, rmCurve, List.range_succ]
    ring_nf
    simp
  · intro rm points hp h1 h2 h3 h4
    unfold ReferenceMap.jacobian_inverse
    rw [eval_deriv1_ok rm points hp]
    set D := (rm.mesh.nodes.getD 0 []).length with hD
    set dim := points.length with hdim
    have h1' : ¬(D = 1 ∧ dim = 1) := fun hc => h1 (by rw [hc.1, hc.2])
    have h2' : ¬(D = 2 ∧ dim = 2) := fun hc => h2 (by rw [hc.1, hc.2])
    have h3' : ¬(D = 3 ∧ dim = 3) := fun hc => h3 (by rw [hc.1, hc.2])
    simp [h1', h2', h3', h4]
  · intro a b c d hdet
    simp [matMul, matInv, List.range_succ]
    field_simp
    ring_nf
    simp

/-- C5 witness: the not-implemented conjunct applied to the concrete
reference surface in 3-D (trailing Jacobian shape (3,2)), and the
genuine-inverse conjunct applied to a concrete invertible matrix. -/
theorem C5_jacobian_inverse_amended_witness :
    (pointsSize [[(1 : ℚ) / 3], [(1 : ℚ) / 3]] ≠ 0 ∧
      rmSurf.jacobian_inverse [[(1 : ℚ) / 3], [(1 : ℚ) / 3]] none
        = .error .notImplementedInverse) ∧
      ((1 : ℚ) * 4 - 2 * 3 ≠ 0 ∧
        matMul (matInv [[1, 2], [3, 4]]) [[(1 : ℚ), 2], [3, 4]]
          = [[1, 0], [0, 1]]) :=
  ⟨⟨by decide,
      C5_jacobian_inverse_amended.2.2.2.2.1 rmSurf
        [[(1 : ℚ) / 3], [(1 : ℚ) / 3]] (by decide) (by decide) (by decide)
        (by decide) (by decide)⟩,
    ⟨by norm_num,
      C5_jacobian_inverse_amended.2.2.2.2.2 1 2 3 4 (by norm_num)⟩⟩

/-- C2: for a non-degenerate straight-sided element and a local point in
the reference domain, the inverse map undoes the forward map exactly: in
dimension 1, for any segment with distinct endpoint coordinates, and in
dimension 2, for any triangle with nonzero edge-matrix determinant,
eval_inverse applied to the global point produced by eval, with that
element as host, returns the local point. -/
theorem C2_affine_round_trip :
    (∀ a b ξ : ℚ, a ≠ b → 0 ≤ ξ → ξ ≤ 1 →
      ∃ g : ℚ, (rmSeg a b).eval [[ξ]] 0 none = .ok (.d0 [[[g]]])
        ∧ (rmSeg a b).eval_inverse [[g]] [[1, 2]] = .ok [[ξ]])
    ∧ (∀ a1 a2 b1 b2 c1 c2 ξ1 ξ2 : ℚ,
        (b1 - a1) * (c2 - a2) - (c1 - a1) * (b2 - a2) ≠ 0 →
        0 ≤ ξ1 → 0 ≤ ξ2 → ξ1 + ξ2 ≤ 1 →
        ∃ g1 g2 : ℚ,
          (rmTri a1 a2 b1 b2 c1 c2).eval [[ξ1], [ξ2]] 0 none
            = .ok (.d0 [[[g1, g2]]])
          ∧ (rmTri a1 a2 b1 b2 c1 c2).eval_inverse [[g1], [g2]] [[1, 2, 3]]
            = .ok [[ξ1], [ξ2]]) := by
  constructor
  · intro a b ξ hab h0 h1
    refine ⟨a * (1 - ξ) + b * ξ, ?_, ?_⟩
    · simp [ReferenceMap.eval, P1.eval_basis, p1Basis0, contract0, applyMask,
        pointsSize, nPoints, pointCoord, takeIdx_nonneg, rmSeg,
        List.range_succ]
    · have hba : b - a ≠ 0 := fun hc => hab (by linarith)
      simp [ReferenceMap.eval_inverse, rmSeg, transposeQ, zipSub,
        takeIdx_nonneg, List.range_succ]
      field_simp
      ring
  · intro a1 a2 b1 b2 c1 c2 ξ1 ξ2 hdet h0 h1 h2
    refine ⟨a1 + (b1 - a1) * ξ1 + (c1 - a1) * ξ2,
      a2 + (b2 - a2) * ξ1 + (c2 - a2) * ξ2, ?_, ?_⟩
    · simp [ReferenceMap.eval, P1.eval_basis, p1Basis0, contract0, applyMask,
        pointsSize, nPoints, pointCoord, takeIdx_nonneg, rmTri,
        List.range_succ]
      constructor <;> ring
    · simp [ReferenceMap.eval_inverse, rmTri, transposeQ, zipSub, matInv,
        takeIdx_nonneg, List.range_succ]
      field_simp
      constructor <;> ring


/-- C2 witness: the round trip at the unit segment with local point 3/4 and
at the unit triangle with local point (1/4, 1/4). -/
theorem C2_affine_round_trip_witness :
    ((0 : ℚ) ≠ 1 ∧
      ∃ g : ℚ, (rmSeg 0 1).eval [[(3 : ℚ) / 4]] 0 none = .ok (.d0 [[[g]]])
        ∧ (rmSeg 0 1).eval_inverse [[g]] [[1, 2]] = .ok [[(3 : ℚ) / 4]])
    ∧ (((1 : ℚ) - 0) * (1 - 0) - (0 - 0) * (0 - 0) ≠ 0 ∧
      ∃ g1 g2 : ℚ,
        (rmTri 0 0 1 0 0 1).eval [[(1 : ℚ) / 4], [(1 : ℚ) / 4]] 0 none
          = .ok (.d0 [[[g1, g2]]])
        ∧ (rmTri 0 0 1 0 0 1).eval_inverse [[g1], [g2]] [[1, 2, 3]]
          = .ok [[(1 : ℚ) / 4], [(1 : ℚ) / 4]]) :=
  ⟨⟨by norm_num,
      C2_affine_round_trip.1 0 1 (3 / 4) (by norm_num) (by norm_num)
        (by norm_num)⟩,
    ⟨by norm_num,
      C2_affine_round_trip.2 0 0 1 0 0 1 (1 / 4) (1 / 4) (by norm_num)
        (by norm_num) (by norm_num) (by norm_num)⟩⟩


/-- Transposing a nonempty column of singletons built pointwise from two
lists yields the single row of the pointwise values. -/
lemma transposeQ_zipWith_singleton {α β : Type} (f : α → β → ℚ)
    (l1 : List α) (l2 : List β) (hz : List.zipWith f l1 l2 ≠ []) :
    transposeQ (List.zipWith (fun a b => [f a b]) l1 l2)
      = [List.zipWith f l1 l2] := by
  have hmap : List.zipWith (fun a b => [f a b]) l1 l2
      = (List.zipWith f l1 l2).map (fun y => [y]) := by
    simp [List.map_zipWith]
  rw [hmap, transposeQ_column _ hz]

/-- C3: eval_inverse gathers each host element's vertex coordinates (the
host given as its 1-based vertex tuple, p0 being its first vertex) and, in
the 1-D case, returns (point - p0) / (v1 - v0) per point; the second
conjunct is the spec's concrete 1-D inverse test, where the global point
3/4 hosted by the element with endpoints 0 and 1 inverts to local
coordinate 3/4. -/
theorem C3_eval_inverse_one_dim :
    (∀ (m : Mesh) (pts : List ℚ) (hq : List (ℕ × ℕ)),
      m.dimension = 1 →
      (∀ nd ∈ m.nodes, nd.length = 1) →
      hq.length = pts.length →
      0 < pts.length →
      (∀ q ∈ hq, 1 ≤ q.1 ∧ q.1 ≤ m.nodes.length
        ∧ 1 ≤ q.2 ∧ q.2 ≤ m.nodes.length) →
      ReferenceMap.eval_inverse { mesh := m } [pts]
          (hq.map fun q => [q.1, q.2])
        = .ok [List.zipWith
            (fun q x => (x - (m.nodes.getD (q.1 - 1) []).getD 0 0)
              / ((m.nodes.getD (q.2 - 1) []).getD 0 0
                - (m.nodes.getD (q.1 - 1) []).getD 0 0)) hq pts])
    ∧ rm1D.eval_inverse [[(3 : ℚ) / 4]] [[1, 2]] = .ok [[3 / 4]] := by
  constructor
  · intro m pts hq hdim hnw hlen hpos hval
    unfold ReferenceMap.eval_inverse
    dsimp only
    rw [if_neg (show ¬((1 : ℕ) ≠ 1) by simp),
      if_neg (show ¬¬(m.dimension = 1 ∨ m.dimension = 2) by simp [hdim]),
      if_neg (show ¬(([pts] : List (List ℚ)).length ≠ m.dimension) by
        simp [hdim]),
      if_pos (show ([pts] : List (List ℚ)).length = 1 by simp)]
    congr 1
    rw [List.map_map, transposeQ_singleton, List.zipWith_map]
    have hstep : ∀ q ∈ hq, ∀ x ∈ pts,
        (List.range ((zipSub
            ((((fun h => List.map
                  (fun (v : ℕ) => takeIdx [] m.nodes ((v : ℤ) - 1)) h)
                ∘ fun (q : ℕ × ℕ) => [q.1, q.2]) q).getD 1 [])
            ((((fun h => List.map
                  (fun (v : ℕ) => takeIdx [] m.nodes ((v : ℤ) - 1)) h)
                ∘ fun (q : ℕ × ℕ) => [q.1, q.2]) q).getD 0 [])).length)).map
          (fun k => 1 / (zipSub
              ((((fun h => List.map
                    (fun (v : ℕ) => takeIdx [] m.nodes ((v : ℤ) - 1)) h)
                  ∘ fun (q : ℕ × ℕ) => [q.1, q.2]) q).getD 1 [])
              ((((fun h => List.map
                    (fun (v : ℕ) => takeIdx [] m.nodes ((v : ℤ) - 1)) h)
                  ∘ fun (q : ℕ × ℕ) => [q.1, q.2]) q).getD 0 [])).getD k 0
            * (([x] : List ℚ).getD k 0
              - ((((fun h => List.map
                      (fun (v : ℕ) => takeIdx [] m.nodes ((v : ℤ) - 1)) h)
                    ∘ fun (q : ℕ × ℕ) => [q.1, q.2]) q).getD 0 []).getD k 0))
        = [(x - (m.nodes.getD (q.1 - 1) []).getD 0 0)
            / ((m.nodes.getD (q.2 - 1) []).getD 0 0
              - (m.nodes.getD (q.1 - 1) []).getD 0 0)] := by
      intro q hqm x hxm
      obtain ⟨hq1, hq2, hq3, hq4⟩ := hval q hqm
      have e1 : takeIdx [] m.nodes ((q.1 : ℤ) - 1)
          = m.nodes.getD (q.1 - 1) [] := by
        rw [takeIdx_nonneg _ _ _ (by omega)]
        congr 1
        omega
      have e2 : takeIdx [] m.nodes ((q.2 : ℤ) - 1)
          = m.nodes.getD (q.2 - 1) [] := by
        rw [takeIdx_nonneg _ _ _ (by omega)]
        congr 1
        omega
      have hm1 : q.1 - 1 < m.nodes.length := by omega
      have hm2 : q.2 - 1 < m.nodes.length := by omega
      have hrow1 : (m.nodes.getD (q.1 - 1) []).length = 1 := by
        rw [List.getD_eq_getElem _ _ hm1]
        exact hnw _ (List.getElem_mem hm1)
      have hrow2 : (m.nodes.getD (q.2 - 1) []).length = 1 := by
        rw [List.getD_eq_getElem _ _ hm2]
        exact hnw _ (List.getElem_mem hm2)
      obtain ⟨u, hu⟩ := List.length_eq_one.mp hrow1
      obtain ⟨w, hw⟩ := List.length_eq_one.mp hrow2
      simp only [Function.comp_apply, List.getD_cons_zero,
        List.getD_cons_succ, List.map_cons, List.map_nil]
      rw [e1, e2, hu, hw]
      simp [zipSub, List.range_succ]
      ring
    rw [zipWith_congr _ _ hq pts hstep]
    have hne : List.zipWith
        (fun (q : ℕ × ℕ) (x : ℚ) => (x - (m.nodes.getD (q.1 - 1) []).getD 0 0)
          / ((m.nodes.getD (q.2 - 1) []).getD 0 0
            - (m.nodes.getD (q.1 - 1) []).getD 0 0)) hq pts ≠ [] := by
      apply List.ne_nil_of_length_pos
      rw [List.length_zipWith, hlen, min_self]
      exact hpos
    exact transposeQ_zipWith_singleton _ hq pts hne
  · simp [ReferenceMap.eval_inverse, rm1D, mesh1D, transposeQ, zipSub,
      takeIdx_nonneg, List.range_succ]


/-- C3 witness: the general 1-D inverse applied to the spec's mesh with
nodes 0, 1, 2, global point 3/4 and host element (1, 2). -/
theorem C3_eval_inverse_one_dim_witness :
    mesh1D.dimension = 1 ∧ (0 : ℕ) < [(3 : ℚ) / 4].length ∧
      ReferenceMap.eval_inverse { mesh := mesh1D } [[(3 : ℚ) / 4]]
          ([((1 : ℕ), (2 : ℕ))].map fun q => [q.1, q.2])
        = .ok [List.zipWith
            (fun (q : ℕ × ℕ) (x : ℚ) =>
              (x - (mesh1D.nodes.getD (q.1 - 1) []).getD 0 0)
                / ((mesh1D.nodes.getD (q.2 - 1) []).getD 0 0
                  - (mesh1D.nodes.getD (q.1 - 1) []).getD 0 0))
            [((1 : ℕ), (2 : ℕ))] [(3 : ℚ) / 4]] :=
  ⟨rfl, by decide,
    C3_eval_inverse_one_dim.1 mesh1D [(3 : ℚ) / 4] [(1, 2)] rfl
      (by decide) rfl (by decide) (by decide)⟩


/-- In-range entry of a map over an index range. -/
lemma getD_map_range {α : Type} (f : ℕ → α) (n b : ℕ) (d : α)
    (hb : b < n) : ((List.range n).map f).getD b d = f b := by
  rw [List.getD_eq_getElem _ _ (by simpa using hb), List.getElem_map,
    List.getElem_range]

/-- Entry (b, p) of the P1 basis-value tensor as a scalar: within range it
is the basis value; beyond the basis-function axis it is zero, as is the
spec-side scalar. -/
lemma p1Basis0_getD (d : ℕ) (points : List (List ℚ))
    (hd : points.length = d) (b p : ℕ) (hp : p < nPoints points) :
    ((p1Basis0 d points).getD b []).getD p 0 = p1BasisVal d points b p := by
  by_cases hb : b < d + 1
  · unfold p1Basis0
    rw [getD_map_range _ _ _ _ hb, getD_map_range _ _ _ _ hp]
    rfl
  · have hout : (p1Basis0 d points).getD b [] = [] := by
      apply List.getD_eq_default
      unfold p1Basis0
      simp only [List.length_map, List.length_range]
      omega
    rw [hout]
    unfold p1BasisVal pointCoord
    rw [if_neg (by omega)]
    have hpout : points.getD (b - 1) [] = [] := by
      apply List.getD_eq_default
      omega
    rw [hpout]


/-- C1: eval with derivative order 0 and no mask, on a nonempty point
array, returns the contraction over the basis-function axis of the outer
product of the gathered entity vertex coordinates (node indices offset by
one from the stored topology indices) with the basis values, broadcast
over entities and points, with result shape entities x points x space
(stated as equality with the spec-side formula evalZeroSpec); on the 1-D
mesh with nodes 0, 1, 2 and cells (1,2), (2,3), the point 1/2 maps to
global coordinate 1/2 on element 0 and 3/2 on element 1. -/
theorem C1_eval_deriv0_contraction :
    (∀ (rm : ReferenceMap) (points : List (List ℚ)),
        pointsSize points ≠ 0 →
        rm.eval points 0 none = .ok (.d0 (evalZeroSpec rm.mesh points)))
    ∧ rm1D.eval [[(1 : ℚ) / 2]] 0 none = .ok (.d0 [[[1 / 2]], [[3 / 2]]]) := by
  constructor
  · intro rm points hp
    have h1 : rm.eval points 0 none = .ok (.d0 (contract0
        ((rm.mesh.entities points.length).map fun ent =>
          ent.map fun (v : ℕ) => takeIdx [] rm.mesh.nodes ((v : ℤ) - 1))
        (p1Basis0 points.length points) (nPoints points)
        ((rm.mesh.nodes.getD 0 []).length))) := by
      rw [eval_eq_of_not_empty _ _ _ _ hp]
      simp [P1.eval_basis, applyMask]
    rw [h1]
    congr 1
    congr 1
    unfold contract0 evalZeroSpec
    rw [List.map_map]
    apply List.map_congr_left
    intro ent hent
    dsimp only [Function.comp]
    apply List.map_congr_left
    intro p hpm
    apply List.map_congr_left
    intro k hk
    rw [zipWith_sum_eq_range
      (fun crow brow => crow.getD k 0 * brow.getD p 0) [] []
      (by intro crow; simp)]
    rw [List.length_map]
    congr 1
    apply List.map_congr_left
    intro b hb
    have hbl : b < ent.length := List.mem_range.mp hb
    have hc : (ent.map fun (v : ℕ) =>
          takeIdx [] rm.mesh.nodes ((v : ℤ) - 1)).getD b []
        = takeIdx [] rm.mesh.nodes (((ent.getD b 0 : ℕ) : ℤ) - 1) := by
      rw [List.getD_eq_getElem _ _ (by simpa using hbl), List.getElem_map,
        List.getD_eq_getElem _ _ hbl]
    rw [hc, p1Basis0_getD points.length points rfl b p
      (List.mem_range.mp hpm)]
  · simp [ReferenceMap.eval, P1.eval_basis, p1Basis0, contract0, applyMask,
      pointsSize, nPoints, pointCoord, takeIdx_nonneg, mesh1D, rm1D,
      List.range_succ]
    norm_num

/-- C1 witness: the general contraction applied to the concrete mesh of
the spec at the point 1/2. -/
theorem C1_eval_deriv0_contraction_witness :
    pointsSize [[(1 : ℚ) / 2]] ≠ 0 ∧
      rm1D.eval [[(1 : ℚ) / 2]] 0 none
        = .ok (.d0 (evalZeroSpec rm1D.mesh [[(1 : ℚ) / 2]])) :=
  ⟨by decide, C1_eval_deriv0_contraction.1 rm1D [[(1 : ℚ) / 2]] (by decide)⟩

end PySofe
